import Mathlib

/-!
Verification of the storybook document store (`src/backend/main.py`).

The embedding models the three HTTP handlers of the store — `upload_storybook`
(write), `get_storybook_list` (catalog listing) and `get_storybook_by_filename`
(get by identifier) — as pure functions over an explicit filesystem state.

Modelling conventions:
* File contents are modelled as `Option JValue` — the result of `json.load`:
  `none` means the bytes do not decode as JSON, `some v` is the decoded value.
  A `JValue.null` is Python `None`; JSON numbers are modelled as `Int` (the
  records at issue carry only integers; floats are out of scope).
* `FS.files` maps canonical (fully resolved) absolute paths to file data.
  `FS.links` models symbolic links: `os.path.realpath` resolves a path through
  `links` (one hop), and both `os.path.exists` and `open` follow links, exactly
  as in POSIX.  A filesystem with `links = []` has no symlinks, which is the
  only kind of state the store itself ever creates.
* Python string primitives (`in`, `startswith`, `endswith`, `<`, `rstrip`,
  `replace`, `str.isalnum`) are modelled over `List Char`.  `str.isalnum` is
  modelled by `Char.isAlphanum`; the Unicode letter classes beyond ASCII and
  pydantic's lax digit-string-to-int coercion are out of modelled scope — no
  claim below is settled inside those gaps.
* Python's `list.sort(key=..., reverse=True)` is a stable descending sort; any
  stable sort agrees with it, so it is modelled by `List.insertionSort` with
  the relation "createdAt not lexicographically smaller".
* Each `raise HTTPException` site is modelled by an `Err` value; `Err.status`
  records the HTTP status code raised at that site.  Exceptions escaping the
  per-file handler of the listing (e.g. `TypeError`, which is not in its
  `except` clause) are modelled by `Except.error ()` of the whole listing.
-/

namespace Storybook

/-- A decoded JSON value, the result of Python's `json.load`.  `null` doubles
as Python `None`. -/
inductive JValue where
  | null : JValue
  | bool : Bool → JValue
  | num : Int → JValue
  | str : String → JValue
  | arr : List JValue → JValue
  | obj : List (String × JValue) → JValue

/-- Python `pre.isPrefixOf`-style check: `listPre p l` is true iff `p` is a
prefix of `l` (models `str.startswith` after `String.data`). -/
def listPre : List Char → List Char → Bool
  | [], _ => true
  | _ :: _, [] => false
  | a :: as, b :: bs => a == b && listPre as bs

/-- Contiguous-substring check (models Python `sub in s` on strings). -/
def listSub (sub : List Char) : List Char → Bool
  | [] => sub.isEmpty
  | b :: bs => listPre sub (b :: bs) || listSub sub bs

/-- Suffix check (models `str.endswith`). -/
def listSuf (suf l : List Char) : Bool := listPre suf.reverse l.reverse

/-- Python `sub in s` for strings. -/
def pyContains (s sub : String) : Bool := listSub sub.data s.data

/-- Python `s.startswith(pre)`. -/
def pyStartswith (s pre : String) : Bool := listPre pre.data s.data

/-- Python `s.endswith(suf)`. -/
def pyEndswith (s suf : String) : Bool := listSuf suf.data s.data

/-- Lexicographic (code-point) strict order on char lists: Python `<` on
strings. -/
def charListLt : List Char → List Char → Bool
  | _, [] => false
  | [], _ :: _ => true
  | a :: as, b :: bs =>
    if a.toNat < b.toNat then true
    else if b.toNat < a.toNat then false
    else charListLt as bs

/-- Python `a < b` on strings. -/
def pyStrLt (a b : String) : Bool := charListLt a.data b.data

/-- Data of one regular file: its byte size and its content as decoded by
`json.load` (`none` when the bytes are not valid JSON). -/
structure FileData where
  size : Nat
  json : Option JValue

/-- Filesystem state.  `names` is `os.listdir(DATA_DIR)`; `files` maps
canonical absolute paths to file data; `links` models symlinks (a path that is
a key of `links` resolves to the associated target). -/
structure FS where
  names : List String
  files : List (String × FileData)
  links : List (String × String)

/-- `os.path.realpath`: resolve through `links`, identity otherwise. -/
def FS.realpath (fs : FS) (p : String) : String := (fs.links.lookup p).getD p

/-- Content at a path as seen by `open` / `os.path.exists` / `os.path.getsize`
(all of which follow symlinks). -/
def FS.stat (fs : FS) (p : String) : Option FileData :=
  fs.files.lookup (fs.realpath p)

/-- The storage root (`DATA_DIR = os.path.join(os.path.dirname(__file__),
"data")`); its concrete value is abstract, any absolute path works. -/
def DATA_DIR : String := "/data"

/-! ### The pydantic models (lines 42-74 of the source) -/

structure QuestionData where
  question : String
  answers : List String
deriving DecidableEq

structure PageData where
  pageNumber : Int
  text : String
  imagePrompt : String
  imageBase64 : String
  audioBase64 : String
  questions : Option QuestionData
deriving DecidableEq

structure StorybookMetadata where
  title : String
  createdAt : String
  totalPages : Int
  savedPages : Int
  skippedPages : Int
  version : String
  note : String
deriving DecidableEq

structure StorybookData where
  metadata : StorybookMetadata
  pages : List PageData
deriving DecidableEq

structure FileListItem where
  filename : String
  title : String
  createdAt : String
  totalPages : Int
  savedPages : Int
  fileSize : Nat
  imageBase64 : Option String
deriving DecidableEq

/-! ### JSON access helpers (Python dict/list operations) -/

/-- Dict key access `d[k]` on a JSON object (JSON objects produced by
`json.load` have unique keys). -/
def jget (v : JValue) (k : String) : Option JValue :=
  match v with
  | .obj fields => fields.lookup k
  | _ => none

/-- Python `d.get(k, default)`: the default is used only when the key is
absent (a present `null` is returned as Python `None` = `JValue.null`). -/
def pyGetD (v : JValue) (k : String) (d : JValue) : JValue := (jget v k).getD d

/-- Python `d.get(k)` (default `None`). -/
def pyGet (v : JValue) (k : String) : JValue := pyGetD v k .null

/-- Result of Python `k in data` for a decoded JSON value: membership test for
dicts, element test for lists, substring test for strings, and `TypeError`
(modelled `err`) for the non-iterable scalars. -/
inductive KeyCheck where
  | yes
  | no
  | err
deriving DecidableEq

def pyInCheck (data : JValue) (k : String) : KeyCheck :=
  match data with
  | .obj fields => if (fields.lookup k).isSome then .yes else .no
  | .arr xs =>
    if xs.any (fun v => match v with | .str t => t == k | _ => false) then .yes else .no
  | .str s => if pyContains s k then .yes else .no
  | _ => .err

/-- Python `page.get('pageNumber') == 1`: note that in Python `True == 1`. -/
def pyEqOne : JValue → Bool
  | .num 1 => true
  | .bool true => true
  | _ => false

/-! ### Validation (pydantic, lines 42-65 and the constructor calls) -/

/-- A `str`-typed pydantic field: accepts exactly JSON strings. -/
def asStr : JValue → Option String
  | .str s => some s
  | _ => none

/-- An `int`-typed pydantic field: accepts JSON integers. -/
def asInt : JValue → Option Int
  | .num n => some n
  | _ => none

/-- An `Optional[str]` pydantic field fed with a Python value (`null` is
`None`). -/
def asOptStr : JValue → Option (Option String)
  | .null => some none
  | .str s => some (some s)
  | _ => none

def parseStrings : List JValue → Option (List String)
  | [] => some []
  | v :: vs => do
    let s ← asStr v
    let ss ← parseStrings vs
    some (s :: ss)

def parseQuestionData (v : JValue) : Option QuestionData := do
  let q ← jget v "question" >>= asStr
  match jget v "answers" with
  | some (.arr xs) => do
    let ans ← parseStrings xs
    some ⟨q, ans⟩
  | _ => none

def parsePage (v : JValue) : Option PageData := do
  let pn ← jget v "pageNumber" >>= asInt
  let tx ← jget v "text" >>= asStr
  let ip ← jget v "imagePrompt" >>= asStr
  let ib ← jget v "imageBase64" >>= asStr
  let ab ← jget v "audioBase64" >>= asStr
  let qs ← match jget v "questions" with
    | none => some none
    | some .null => some none
    | some qv => (parseQuestionData qv).map some
  some ⟨pn, tx, ip, ib, ab, qs⟩

def parsePages : List JValue → Option (List PageData)
  | [] => some []
  | v :: vs => do
    let p ← parsePage v
    let ps ← parsePages vs
    some (p :: ps)

def parseMetadata (v : JValue) : Option StorybookMetadata := do
  let t ← jget v "title" >>= asStr
  let c ← jget v "createdAt" >>= asStr
  let tp ← jget v "totalPages" >>= asInt
  let sp ← jget v "savedPages" >>= asInt
  let kp ← jget v "skippedPages" >>= asInt
  let ver ← jget v "version" >>= asStr
  let nt ← jget v "note" >>= asStr
  some ⟨t, c, tp, sp, kp, ver, nt⟩

/-- `StorybookData(**data)`: pydantic validation of a decoded JSON value. -/
def parseStorybook (v : JValue) : Option StorybookData := do
  let mv ← jget v "metadata"
  let md ← parseMetadata mv
  match jget v "pages" with
  | some (.arr ps) => do
    let pages ← parsePages ps
    some ⟨md, pages⟩
  | _ => none

/-! ### Serialization (`model_dump` + `json.dump`, value level) -/

def QuestionData.dump (q : QuestionData) : JValue :=
  .obj [("question", .str q.question), ("answers", .arr (q.answers.map JValue.str))]

def PageData.dump (p : PageData) : JValue :=
  .obj [("pageNumber", .num p.pageNumber), ("text", .str p.text),
        ("imagePrompt", .str p.imagePrompt), ("imageBase64", .str p.imageBase64),
        ("audioBase64", .str p.audioBase64),
        ("questions", match p.questions with | none => .null | some q => q.dump)]

def StorybookMetadata.dump (m : StorybookMetadata) : JValue :=
  .obj [("title", .str m.title), ("createdAt", .str m.createdAt),
        ("totalPages", .num m.totalPages), ("savedPages", .num m.savedPages),
        ("skippedPages", .num m.skippedPages), ("version", .str m.version),
        ("note", .str m.note)]

def StorybookData.dump (d : StorybookData) : JValue :=
  .obj [("metadata", d.metadata.dump), ("pages", .arr (d.pages.map PageData.dump))]

/-- Abstraction of the byte length of the serialized JSON (`os.path.getsize`
after `json.dump`); its exact value is irrelevant to every claim. -/
def jsonSize : JValue → Nat
  | .null => 4
  | .bool _ => 5
  | .num _ => 1
  | .str s => s.length + 2
  | .arr xs => 2 + jsonSizeList xs
  | .obj fields => 2 + jsonSizeFields fields
where
  jsonSizeList : List JValue → Nat
    | [] => 0
    | x :: xs => jsonSize x + 2 + jsonSizeList xs
  jsonSizeFields : List (String × JValue) → Nat
    | [] => 0
    | (k, v) :: rest => k.length + 4 + jsonSize v + jsonSizeFields rest

/-! ### Error taxonomy and HTTP statuses -/

/-- The failure kinds of the store, one per family of `raise HTTPException`
sites in `get_storybook_by_filename` / `upload_storybook`. -/
inductive Err where
  | invalidIdentifier
  | notFound
  | corruptRecord
  | schemaViolation
  | storageFailure
deriving DecidableEq

/-- The HTTP status code raised for each failure kind (lines 216-220: 400;
229-234: 404; 249-254, 256-271: 500; 133-138: 500). -/
def Err.status : Err → Nat
  | .invalidIdentifier => 400
  | .notFound => 404
  | .corruptRecord => 500
  | .schemaViolation => 500
  | .storageFailure => 500

/-! ### `upload_storybook` (lines 93-138) -/

/-- `safe_title` (lines 102-103): keep alphanumerics, space, hyphen and
underscore, strip trailing whitespace, then replace spaces by underscores. -/
def safe_title (title : String) : String :=
  ⟨((title.data.filter fun c =>
      c.isAlphanum || c == ' ' || c == '-' || c == '_').reverse.dropWhile
        Char.isWhitespace).reverse.map fun c => if c == ' ' then '_' else c⟩

/-- Line 104: `filename = f"{safe_title}_{timestamp}_{file_id}.json"`.  The
timestamp (`datetime.now().strftime("%Y%m%d_%H%M%S")`) and the random token
(`str(uuid.uuid4())[:8]`) are inputs of the model. -/
def makeFilename (title ts fid : String) : String :=
  safe_title title ++ "_" ++ ts ++ "_" ++ fid ++ ".json"

structure UploadResponse where
  filename : String
  file_size : Nat
  saved_pages : Int
  total_pages : Int
deriving DecidableEq

/-- The upload handler: the document arrives already validated by the pydantic
layer; the handler generates the filename, writes the serialized document and
echoes filename, size and page counts. -/
def upload_storybook (fs : FS) (d : StorybookData) (ts fid : String) :
    FS × UploadResponse :=
  let filename := makeFilename d.metadata.title ts fid
  let path := DATA_DIR ++ "/" ++ filename
  let content := d.dump
  let size := jsonSize content
  (⟨fs.names ++ [filename], (path, ⟨size, some content⟩) :: fs.files, fs.links⟩,
   ⟨filename, size, d.metadata.savedPages, d.metadata.totalPages⟩)

/-! ### `get_storybook_by_filename` (lines 208-284) -/

/-- Lines 222-224: append `.json` when absent. -/
def withExt (filename : String) : String :=
  if pyEndswith filename ".json" then filename else filename ++ ".json"

/-- Line 227: `file_path = os.path.join(DATA_DIR, filename)` after the
extension append. -/
def readPath (filename : String) : String := DATA_DIR ++ "/" ++ withExt filename

/-- Line 216: the sanitization predicate on the raw identifier. -/
def badName (s : String) : Bool :=
  pyContains s ".." || pyContains s "/" || pyContains s "\\"

/-- The get-by-identifier handler.  Branch order follows the source: sanitize
(line 216), append extension (222), existence check (230), realpath
containment check (236-243), JSON decode (246-254), `metadata`/`pages`
presence (256-261), pydantic validation (263-271).  Failures that Python
surfaces through the generic 500 handlers (a non-container decoded value, a
list-typed `pages`) are reported as `schemaViolation`, which carries the same
500 status the source raises there. -/
def get_storybook_by_filename (fs : FS) (filename : String) :
    Except Err StorybookData :=
  if badName filename then .error .invalidIdentifier
  else
    let path := readPath filename
    match fs.stat path with
    | none => .error .notFound
    | some fd =>
      if pyStartswith (fs.realpath path) (fs.realpath DATA_DIR) = false then
        .error .invalidIdentifier
      else
        match fd.json with
        | none => .error .corruptRecord
        | some data =>
          if pyInCheck data "metadata" = KeyCheck.yes
              ∧ pyInCheck data "pages" = KeyCheck.yes then
            match parseStorybook data with
            | none => .error .schemaViolation
            | some sd => .ok sd
          else .error .schemaViolation

/-! ### `get_storybook_list` (lines 141-205) -/

/-- Per-file outcome inside the listing loop.  `fatal` marks an exception the
`except (json.JSONDecodeError, KeyError, ValueError)` clause does not catch
(e.g. `TypeError` from `'metadata' in data` on a non-container, or
`AttributeError` from `.get` on a non-dict metadata value): it escapes to the
outer handler and aborts the whole listing with a 500. -/
inductive ScanStep where
  | item : FileListItem → ScanStep
  | skip
  | fatal
deriving DecidableEq

/-- Lines 169-175: the first page with `pageNumber == 1`, then its
`imageBase64` (Python `None` when no such page or no such key). -/
def page1Image (data : JValue) : JValue :=
  match jget data "pages" with
  | some (.arr pages) =>
    match pages.find? (fun p =>
        match p with | .obj _ => pyEqOne (pyGet p "pageNumber") | _ => false) with
    | some p => pyGet p "imageBase64"
    | none => .null
  | _ => .null

/-- Lines 156-192: one iteration of the listing loop over an entry that ends
in `.json` and was stat'ed successfully. -/
def processFile (filename : String) (fd : FileData) : ScanStep :=
  match fd.json with
  | none => .skip
  | some data =>
    match pyInCheck data "metadata" with
    | .err => .fatal
    | .no => .skip
    | .yes =>
      match data with
      | .obj fields =>
        match fields.lookup "metadata" with
        | some (.obj mfields) =>
          let m : JValue := .obj mfields
          match asStr (pyGetD m "title" (.str "タイトル不明")),
                asStr (pyGetD m "createdAt" (.str "")),
                asInt (pyGetD m "totalPages" (.num 0)),
                asInt (pyGetD m "savedPages" (.num 0)),
                asOptStr (page1Image data) with
          | some t, some c, some tp, some sp, some img =>
            .item ⟨filename, t, c, tp, sp, fd.size, img⟩
          | _, _, _, _, _ => .skip
        | _ => .fatal
      | _ => .fatal

/-- The scan loop (lines 152-192): files not ending in `.json` are ignored; a
name that cannot be stat'ed raises `OSError` (uncaught there, modelled
`error`); otherwise `processFile` decides. -/
def scanFiles (fs : FS) : List String → Except Unit (List FileListItem)
  | [] => .ok []
  | n :: rest =>
    if pyEndswith n ".json" then
      match fs.stat (DATA_DIR ++ "/" ++ n) with
      | none => .error ()
      | some fd =>
        match processFile n fd with
        | .fatal => .error ()
        | .skip => scanFiles fs rest
        | .item it =>
          match scanFiles fs rest with
          | .error e => .error e
          | .ok l => .ok (it :: l)
    else scanFiles fs rest

/-- The descending order used on line 195: `a` may precede `b` iff
`a.createdAt` is not lexicographically smaller than `b.createdAt`. -/
def itemGe (a b : FileListItem) : Prop := pyStrLt a.createdAt b.createdAt = false

instance : DecidableRel itemGe := fun a b =>
  show Decidable (pyStrLt a.createdAt b.createdAt = false) from inferInstance

/-- The list handler: scan all directory entries, then stable-sort the
summaries descending by `createdAt` (line 195). -/
def get_storybook_list (fs : FS) : Except Unit (List FileListItem) :=
  (scanFiles fs fs.names).map (List.insertionSort itemGe)

end Storybook

namespace Storybook

/-! ### Lexical in-root predicate and concrete states used by the theorems -/

/-- A path is lexically inside the storage root: it is `DATA_DIR/f` for a
single path component `f` (no separator, not a dot component), so resolving
it on a link-free filesystem stays inside the root. -/
def inRoot (p : String) : Prop :=
  ∃ f : String, p = DATA_DIR ++ "/" ++ f ∧ '/' ∉ f.data ∧ '\\' ∉ f.data ∧
    f ≠ ".." ∧ f ≠ "."

/-- What `os.listdir` guarantees about every returned entry name: a bare
name, never a separator-carrying path nor a dot entry. -/
def goodEntryName (n : String) : Prop :=
  '/' ∉ n.data ∧ '\\' ∉ n.data ∧ n ≠ ".." ∧ n ≠ "."

/-- Catalog-entry field extractors, stated from the spec's words (§4.3):
`title` (placeholder default if absent), `createdAt` (default empty),
`totalPages`/`savedPages` (default 0), and the `imageBase64` of the first
page whose `pageNumber == 1` (absent if no such page or field). -/
def specMeta (data : JValue) : JValue := (jget data "metadata").getD .null

/-- Extract a text field, with a default when it is absent (or unusable as
text). -/
def strFieldD (m : JValue) (k dflt : String) : String :=
  match jget m k with
  | some (.str s) => s
  | some _ => dflt
  | none => dflt

/-- Extract an integer field, with a default when it is absent (or unusable
as an integer). -/
def intFieldD (m : JValue) (k : String) (dflt : Int) : Int :=
  match jget m k with
  | some (.num n) => n
  | some _ => dflt
  | none => dflt

def specTitle (data : JValue) : String :=
  strFieldD (specMeta data) "title" "タイトル不明"

def specCreatedAt (data : JValue) : String :=
  strFieldD (specMeta data) "createdAt" ""

def specTotalPages (data : JValue) : Int :=
  intFieldD (specMeta data) "totalPages" 0

def specSavedPages (data : JValue) : Int :=
  intFieldD (specMeta data) "savedPages" 0

/-- Spec §4.3: scan the `pages` sequence for the first entry whose
`pageNumber == 1` and take its `imageBase64`; absent when there is no such
page, or the field is missing, or it is not a string payload. -/
def specImage (data : JValue) : Option String :=
  match jget data "pages" with
  | some (.arr pages) =>
    match pages.find? (fun p => pyEqOne (pyGet p "pageNumber")) with
    | some p =>
      match jget p "imageBase64" with
      | some (.str s) => some s
      | some _ => none
      | none => none
    | none => none
  | _ => none

/-- An empty storage root. -/
def fsEmpty : FS := ⟨[], [], []⟩

/-- A sample valid document. -/
def sampleDoc : StorybookData :=
  ⟨⟨"My Title", "2025-01-01T12:00:00", 1, 1, 0, "1.0", "n"⟩,
   [⟨1, "t", "p", "img64", "aud64", some ⟨"q?", ["a1", "a2"]⟩⟩]⟩

/-- A root holding one well-formed record under `a.json`. -/
def fsW : FS := ⟨["a.json"], [("/data/a.json", ⟨9, some sampleDoc.dump⟩)], []⟩

/-- A root whose entry `evil.json` is a dangling symlink whose target lies
outside the root: the resolved path escapes, yet no file exists there. -/
def fsC4 : FS := ⟨["evil.json"], [], [("/data/evil.json", "/secret/evil.json")]⟩

/-- A root with an undecodable record. -/
def fsCorrupt : FS := ⟨["c.json"], [("/data/c.json", ⟨3, none⟩)], []⟩

/-- A root with a decodable record that fails schema validation. -/
def fsBadSchema : FS :=
  ⟨["s.json"], [("/data/s.json", ⟨3, some (.obj [])⟩)], []⟩

/-- Three records whose `createdAt` are the spec's §8 sort-order example. -/
def recA : JValue :=
  .obj [("metadata", .obj [("title", .str "A"), ("createdAt", .str "2024-01-01T00:00:00")])]

def recB : JValue :=
  .obj [("metadata", .obj [("title", .str "B"), ("createdAt", .str "2025-06-01T00:00:00")])]

def recC : JValue :=
  .obj [("metadata", .obj [("title", .str "C"), ("createdAt", .str "2023-12-31T23:59:59")])]

def fsC5 : FS := ⟨["a.json", "b.json", "c.json"],
  [("/data/a.json", ⟨5, some recA⟩), ("/data/b.json", ⟨6, some recB⟩),
   ("/data/c.json", ⟨7, some recC⟩)], []⟩

/-- One valid record plus one file whose bytes are the JSON text `5`: it
decodes (to a non-container) and has no `metadata` field. -/
def fsC6bad : FS := ⟨["good.json", "scalar.json"],
  [("/data/good.json", ⟨9, some recA⟩), ("/data/scalar.json", ⟨1, some (.num 5)⟩)], []⟩

/-- The same root without the scalar file. -/
def fsC6good : FS := ⟨["good.json"], [("/data/good.json", ⟨9, some recA⟩)], []⟩

/-- A record that decodes, has a `metadata` mapping and no `pages`, but whose
`title` is a number. -/
def fdC10 : FileData := ⟨5, some (.obj [("metadata", .obj [("title", .num 5)])])⟩

/-- A record with a `metadata` mapping, a well-typed title and no `pages`. -/
def fdC10ok : FileData := ⟨5, some (.obj [("metadata", .obj [("title", .str "t")])])⟩

end Storybook
namespace Storybook

/-! ## Helper lemmas: the Python string primitives -/

theorem listPre_append_self (a t : List Char) : listPre a (a ++ t) = true := by
  induction a with
  | nil => rfl
  | cons x xs ih => simp [listPre, ih]

theorem listPre_mono_append {a l : List Char} (t : List Char)
    (h : listPre a l = true) : listPre a (l ++ t) = true := by
  induction a generalizing l with
  | nil => rfl
  | cons x xs ih =>
    cases l with
    | nil => simp [listPre] at h
    | cons b bs =>
      simp only [listPre, Bool.and_eq_true] at h ⊢
      exact ⟨h.1, ih h.2⟩

theorem listSub_mono_append {sub l : List Char} (t : List Char)
    (h : listSub sub l = true) : listSub sub (l ++ t) = true := by
  induction l with
  | nil =>
    cases sub with
    | nil =>
      cases t with
      | nil => rfl
      | cons b bs => simp [listSub, listPre]
    | cons c cs => simp [listSub, List.isEmpty] at h
  | cons b bs ih =>
    simp only [List.cons_append, listSub, Bool.or_eq_true] at h ⊢
    rcases h with h | h
    · exact Or.inl (listPre_mono_append t h)
    · exact Or.inr (ih h)

theorem listPre_singleton {c : Char} {l : List Char}
    (h : listPre [c] l = true) : c ∈ l := by
  cases l with
  | nil => simp [listPre] at h
  | cons b bs =>
    simp only [listPre, Bool.and_eq_true, beq_iff_eq] at h
    exact h.1 ▸ List.mem_cons_self b bs

theorem listSub_singleton {c : Char} {l : List Char} :
    listSub [c] l = true ↔ c ∈ l := by
  induction l with
  | nil => simp [listSub, List.isEmpty]
  | cons b bs ih =>
    simp only [listSub, Bool.or_eq_true]
    constructor
    · rintro (h | h)
      · exact listPre_singleton h
      · exact List.mem_cons_of_mem _ (ih.1 h)
    · intro h
      rcases List.mem_cons.1 h with rfl | h
      · exact Or.inl (by simp [listPre])
      · exact Or.inr (ih.2 h)

theorem listPre_two_count {c : Char} {l : List Char}
    (h : listPre [c, c] l = true) : 2 ≤ l.count c := by
  cases l with
  | nil => simp [listPre] at h
  | cons b bs =>
    cases bs with
    | nil => simp [listPre] at h
    | cons b2 bs2 =>
      simp only [listPre, Bool.and_eq_true, beq_iff_eq] at h
      obtain ⟨rfl, rfl, -⟩ := h
      simp [List.count_cons]

theorem listSub_two_count {c : Char} {l : List Char}
    (h : listSub [c, c] l = true) : 2 ≤ l.count c := by
  induction l with
  | nil => simp [listSub, List.isEmpty] at h
  | cons b bs ih =>
    simp only [listSub, Bool.or_eq_true] at h
    rcases h with h | h
    · exact listPre_two_count h
    · have := ih h
      have hc : bs.count c ≤ (b :: bs).count c := by
        simp only [List.count_cons]
        omega
      omega

theorem listSub_two_eq_false {c : Char} {l : List Char}
    (h : l.count c ≤ 1) : listSub [c, c] l = false := by
  cases h2 : listSub [c, c] l with
  | false => rfl
  | true => exact absurd (listSub_two_count h2) (by omega)

theorem listSuf_append_self (s t : List Char) : listSuf s (t ++ s) = true := by
  unfold listSuf
  rw [List.reverse_append]
  exact listPre_append_self _ _

theorem pyEndswith_append (s t : String) : pyEndswith (s ++ t) t = true := by
  unfold pyEndswith
  rw [String.data_append]
  exact listSuf_append_self _ _

theorem pyStartswith_append2 (a b c : String) :
    pyStartswith (a ++ b ++ c) a = true := by
  unfold pyStartswith
  rw [String.data_append, String.data_append, List.append_assoc]
  exact listPre_append_self _ _

theorem pyEndswith_withExt (s : String) : pyEndswith (withExt s) ".json" = true := by
  unfold withExt
  by_cases h : pyEndswith s ".json" = true
  · rw [if_pos h]; exact h
  · rw [if_neg h]; exact pyEndswith_append s ".json"

theorem withExt_of_endswith {s : String} (h : pyEndswith s ".json" = true) :
    withExt s = s := if_pos h

theorem withExt_of_not_endswith {s : String} (h : pyEndswith s ".json" = false) :
    withExt s = s ++ ".json" := if_neg (by simp [h])

theorem pyContains_mono {s sub : String} (t : String)
    (h : pyContains s sub = true) : pyContains (s ++ t) sub = true := by
  unfold pyContains at h ⊢
  rw [String.data_append]
  exact listSub_mono_append _ h

theorem pyContains_mono_false {s sub : String} (t : String)
    (h : pyContains (s ++ t) sub = false) : pyContains s sub = false := by
  cases h2 : pyContains s sub with
  | false => rfl
  | true => rw [pyContains_mono t h2] at h; simp at h

theorem badName_of_append_false {s t : String} (h : badName (s ++ t) = false) :
    badName s = false := by
  unfold badName at h ⊢
  simp only [Bool.or_eq_false_iff] at h ⊢
  exact ⟨⟨pyContains_mono_false t h.1.1, pyContains_mono_false t h.1.2⟩,
    pyContains_mono_false t h.2⟩

theorem pyContains_eq_false_of_not_mem {s sub : String} {c : Char}
    (hd : sub.data = [c]) (h : c ∉ s.data) : pyContains s sub = false := by
  unfold pyContains
  rw [hd]
  cases h2 : listSub [c] s.data with
  | false => rfl
  | true => exact absurd (listSub_singleton.1 h2) h

theorem pyContains_dotdot_false {s : String} (h : s.data.count '.' ≤ 1) :
    pyContains s ".." = false := by
  have hd : (".." : String).data = ['.', '.'] := rfl
  unfold pyContains
  rw [hd]
  exact listSub_two_eq_false h

theorem badName_eq_false {s : String} (hdot : s.data.count '.' ≤ 1)
    (h1 : '/' ∉ s.data) (h2 : '\\' ∉ s.data) : badName s = false := by
  unfold badName
  rw [pyContains_dotdot_false hdot, pyContains_eq_false_of_not_mem rfl h1,
    pyContains_eq_false_of_not_mem rfl h2]
  rfl

theorem realpath_nil {fs : FS} (h : fs.links = []) (p : String) :
    fs.realpath p = p := by
  unfold FS.realpath
  rw [h]
  rfl

theorem stat_nil {fs : FS} (h : fs.links = []) (p : String) :
    fs.stat p = fs.files.lookup p := by
  unfold FS.stat
  rw [realpath_nil h]

end Storybook
namespace Storybook

/-! ## Helper lemmas: the generated filename -/

theorem mem_safe_title {c : Char} {t : String} (h : c ∈ (safe_title t).data) :
    c.isAlphanum = true ∨ c = '-' ∨ c = '_' := by
  unfold safe_title at h
  obtain ⟨c0, hm, rfl⟩ := List.mem_map.1 h
  have h1 : c0 ∈ ((t.data.filter fun c =>
      c.isAlphanum || c == ' ' || c == '-' || c == '_').reverse.dropWhile
        Char.isWhitespace) := List.mem_reverse.1 hm
  have h2 : c0 ∈ (t.data.filter fun c =>
      c.isAlphanum || c == ' ' || c == '-' || c == '_') :=
    List.mem_reverse.1 ((List.dropWhile_sublist _).subset h1)
  have hp := (List.mem_filter.1 h2).2
  by_cases hsp : (c0 == ' ') = true
  · rw [if_pos hsp]
    right; right; rfl
  · rw [if_neg hsp]
    simp only [Bool.or_eq_true, beq_iff_eq] at hp
    rcases hp with ((ha | hs) | hh) | hu
    · exact Or.inl ha
    · exact absurd (beq_iff_eq.2 hs) hsp
    · exact Or.inr (Or.inl hh)
    · exact Or.inr (Or.inr hu)

theorem mem_makeFilename {c : Char} {t ts fid : String}
    (hts : ∀ x ∈ ts.data, x.isDigit = true ∨ x = '_')
    (hfid : ∀ x ∈ fid.data, x.isAlphanum = true)
    (h : c ∈ (makeFilename t ts fid).data) :
    c.isAlphanum = true ∨ c = '-' ∨ c = '_' ∨ c = '.' := by
  unfold makeFilename at h
  rw [String.data_append, String.data_append, String.data_append,
    String.data_append, String.data_append] at h
  simp only [List.mem_append] at h
  rcases h with (((((h | h) | h) | h) | h) | h)
  · rcases mem_safe_title h with h | h | h
    · exact Or.inl h
    · exact Or.inr (Or.inl h)
    · exact Or.inr (Or.inr (Or.inl h))
  · simp at h
    exact Or.inr (Or.inr (Or.inl h))
  · rcases hts c h with h1 | h1
    · exact Or.inl (by simp [Char.isAlphanum, h1])
    · exact Or.inr (Or.inr (Or.inl h1))
  · simp at h
    exact Or.inr (Or.inr (Or.inl h))
  · exact Or.inl (hfid c h)
  · simp at h
    rcases h with rfl | rfl | rfl | rfl | rfl
    · exact Or.inr (Or.inr (Or.inr rfl))
    · exact Or.inl (by decide)
    · exact Or.inl (by decide)
    · exact Or.inl (by decide)
    · exact Or.inl (by decide)

theorem makeFilename_no_slash {t ts fid : String}
    (hts : ∀ x ∈ ts.data, x.isDigit = true ∨ x = '_')
    (hfid : ∀ x ∈ fid.data, x.isAlphanum = true) :
    '/' ∉ (makeFilename t ts fid).data := by
  intro h
  rcases mem_makeFilename hts hfid h with h | h | h | h <;> revert h <;> decide

theorem makeFilename_no_backslash {t ts fid : String}
    (hts : ∀ x ∈ ts.data, x.isDigit = true ∨ x = '_')
    (hfid : ∀ x ∈ fid.data, x.isAlphanum = true) :
    '\\' ∉ (makeFilename t ts fid).data := by
  intro h
  rcases mem_makeFilename hts hfid h with h | h | h | h <;> revert h <;> decide

theorem makeFilename_dot_count {t ts fid : String}
    (hts : ∀ x ∈ ts.data, x.isDigit = true ∨ x = '_')
    (hfid : ∀ x ∈ fid.data, x.isAlphanum = true) :
    (makeFilename t ts fid).data.count '.' = 1 := by
  unfold makeFilename
  rw [String.data_append, String.data_append, String.data_append,
    String.data_append, String.data_append, List.count_append,
    List.count_append, List.count_append, List.count_append,
    List.count_append]
  have h1 : (safe_title t).data.count '.' = 0 := by
    rw [List.count_eq_zero]
    intro hm
    rcases mem_safe_title hm with h | h | h <;> revert h <;> decide
  have h2 : ("_" : String).data.count '.' = 0 := by decide
  have h3 : ts.data.count '.' = 0 := by
    rw [List.count_eq_zero]
    intro hm
    rcases hts _ hm with h | h <;> revert h <;> decide
  have h4 : fid.data.count '.' = 0 := by
    rw [List.count_eq_zero]
    intro hm
    have h := hfid _ hm
    revert h
    decide
  have h5 : (".json" : String).data.count '.' = 1 := by decide
  omega

theorem badName_makeFilename {t ts fid : String}
    (hts : ∀ x ∈ ts.data, x.isDigit = true ∨ x = '_')
    (hfid : ∀ x ∈ fid.data, x.isAlphanum = true) :
    badName (makeFilename t ts fid) = false :=
  badName_eq_false (by rw [makeFilename_dot_count hts hfid])
    (makeFilename_no_slash hts hfid) (makeFilename_no_backslash hts hfid)

/-! ## Helper lemmas: pydantic validation inverts serialization -/

theorem parseStrings_map (l : List String) :
    parseStrings (l.map JValue.str) = some l := by
  induction l with
  | nil => rfl
  | cons s ss ih =>
    show (parseStrings (ss.map JValue.str)).bind (fun r => some (s :: r)) = _
    rw [ih]
    rfl

theorem parseQuestionData_dump (q : QuestionData) :
    parseQuestionData q.dump = some q := by
  show (parseStrings (q.answers.map JValue.str)).bind
    (fun ans => some ⟨q.question, ans⟩) = some q
  rw [parseStrings_map]
  rfl

theorem parsePage_dump (p : PageData) : parsePage p.dump = some p := by
  obtain ⟨pn, tx, ip, ib, ab, qs⟩ := p
  cases qs with
  | none => rfl
  | some q =>
    show ((parseQuestionData q.dump).map some).bind
      (fun r => some (PageData.mk pn tx ip ib ab r)) = _
    rw [parseQuestionData_dump]
    rfl

theorem parsePages_map (ps : List PageData) :
    parsePages (ps.map PageData.dump) = some ps := by
  induction ps with
  | nil => rfl
  | cons p rest ih =>
    show (parsePage p.dump).bind (fun p1 =>
      (parsePages (rest.map PageData.dump)).bind fun ps1 => some (p1 :: ps1)) = _
    rw [parsePage_dump, ih]
    rfl

theorem parseMetadata_dump (m : StorybookMetadata) :
    parseMetadata m.dump = some m := rfl

theorem parseStorybook_dump (d : StorybookData) :
    parseStorybook d.dump = some d := by
  show (parseMetadata d.metadata.dump).bind (fun md =>
    (parsePages (d.pages.map PageData.dump)).bind fun pages =>
      some ⟨md, pages⟩) = some d
  rw [parseMetadata_dump, parsePages_map]
  rfl

theorem pyInCheck_dump_metadata (d : StorybookData) :
    pyInCheck d.dump "metadata" = KeyCheck.yes := rfl

theorem pyInCheck_dump_pages (d : StorybookData) :
    pyInCheck d.dump "pages" = KeyCheck.yes := rfl

end Storybook
namespace Storybook

/-! ## Helper lemmas: outcomes of `get_storybook_by_filename` -/

theorem read_invalid_of_bad {fs : FS} {fname : String}
    (hbad : badName fname = true) :
    get_storybook_by_filename fs fname = .error .invalidIdentifier := by
  simp only [get_storybook_by_filename, hbad, if_true]

theorem read_notFound_of {fs : FS} {fname : String}
    (hbad : badName fname = false) (hstat : fs.stat (readPath fname) = none) :
    get_storybook_by_filename fs fname = .error .notFound := by
  simp only [get_storybook_by_filename, hbad, hstat, Bool.false_eq_true,
    if_false]

theorem read_invalid_of_escape {fs : FS} {fname : String} {fd : FileData}
    (hbad : badName fname = false) (hstat : fs.stat (readPath fname) = some fd)
    (hpre : pyStartswith (fs.realpath (readPath fname))
      (fs.realpath DATA_DIR) = false) :
    get_storybook_by_filename fs fname = .error .invalidIdentifier := by
  simp only [get_storybook_by_filename, hbad, hstat, hpre, Bool.false_eq_true,
    if_false, if_true]

theorem read_ok_of {fs : FS} {fname : String} {d : StorybookData} {fd : FileData}
    (hbad : badName fname = false)
    (hstat : fs.stat (readPath fname) = some fd)
    (hpre : pyStartswith (fs.realpath (readPath fname))
      (fs.realpath DATA_DIR) = true)
    (hjson : fd.json = some d.dump) :
    get_storybook_by_filename fs fname = .ok d := by
  simp only [get_storybook_by_filename, hbad, hstat, hjson, hpre,
    pyInCheck_dump_metadata, pyInCheck_dump_pages, parseStorybook_dump,
    Bool.false_eq_true, Bool.true_eq_false, if_false, and_self, if_true]

theorem read_ok_badName {fs : FS} {s : String} {d : StorybookData}
    (h : get_storybook_by_filename fs s = .ok d) : badName s = false := by
  cases hb : badName s with
  | false => rfl
  | true => rw [read_invalid_of_bad hb] at h; cases h

/-! ## Helper lemmas: the containment predicate -/

theorem badName_false_parts {s : String} (h : badName s = false) :
    pyContains s ".." = false ∧ pyContains s "/" = false ∧
      pyContains s "\\" = false := by
  unfold badName at h
  simp only [Bool.or_eq_false_iff] at h
  exact ⟨h.1.1, h.1.2, h.2⟩

theorem not_mem_of_pyContains_false {s : String} {c : Char} {sub : String}
    (hd : sub.data = [c]) (h : pyContains s sub = false) : c ∉ s.data := by
  intro hm
  unfold pyContains at h
  rw [hd, listSub_singleton.2 hm] at h
  cases h

theorem mem_withExt {c : Char} {s : String} (h : c ∈ (withExt s).data) :
    c ∈ s.data ∨ c ∈ (".json" : String).data := by
  unfold withExt at h
  by_cases he : pyEndswith s ".json" = true
  · rw [if_pos he] at h
    exact Or.inl h
  · rw [if_neg he, String.data_append] at h
    exact List.mem_append.1 h

theorem withExt_ne_dotdot (s : String) : withExt s ≠ ".." := by
  intro h
  have h2 := pyEndswith_withExt s
  rw [h] at h2
  exact absurd h2 (by decide)

theorem withExt_ne_dot (s : String) : withExt s ≠ "." := by
  intro h
  have h2 := pyEndswith_withExt s
  rw [h] at h2
  exact absurd h2 (by decide)

theorem inRoot_readPath {s : String} (hbad : badName s = false) :
    inRoot (readPath s) := by
  obtain ⟨-, hs, hb⟩ := badName_false_parts hbad
  refine ⟨withExt s, rfl, ?_, ?_, withExt_ne_dotdot s, withExt_ne_dot s⟩
  · intro hm
    rcases mem_withExt hm with h | h
    · exact not_mem_of_pyContains_false rfl hs h
    · revert h
      decide
  · intro hm
    rcases mem_withExt hm with h | h
    · exact not_mem_of_pyContains_false rfl hb h
    · revert h
      decide

/-! ## Helper lemmas: the descending `createdAt` order -/

theorem charListLt_asymm {a b : List Char} (h : charListLt a b = true) :
    charListLt b a = false := by
  induction a generalizing b with
  | nil =>
    cases b with
    | nil => simp [charListLt] at h
    | cons bh bs => rfl
  | cons ah as ih =>
    cases b with
    | nil => simp [charListLt] at h
    | cons bh bs =>
      unfold charListLt at h ⊢
      by_cases h1 : ah.toNat < bh.toNat
      · rw [if_neg (by omega), if_pos h1]
      · rw [if_neg h1] at h
        by_cases h2 : bh.toNat < ah.toNat
        · rw [if_pos h2] at h
          exact absurd h (by simp)
        · rw [if_neg h2] at h
          rw [if_neg h2, if_neg h1]
          exact ih h

theorem charListLt_false_trans {a b c : List Char}
    (h1 : charListLt a b = false) (h2 : charListLt b c = false) :
    charListLt a c = false := by
  induction a generalizing b c with
  | nil =>
    cases c with
    | nil => rfl
    | cons ch cs =>
      cases b with
      | nil => simp [charListLt] at h2
      | cons bh bs => simp [charListLt] at h1
  | cons ah as ih =>
    cases c with
    | nil => rfl
    | cons ch cs =>
      cases b with
      | nil => simp [charListLt] at h2
      | cons bh bs =>
        unfold charListLt at h1 h2 ⊢
        by_cases hab : ah.toNat < bh.toNat
        · rw [if_pos hab] at h1
          exact absurd h1 (by simp)
        · rw [if_neg hab] at h1
          by_cases hbc : bh.toNat < ch.toNat
          · rw [if_pos hbc] at h2
            exact absurd h2 (by simp)
          · rw [if_neg hbc] at h2
            rw [if_neg (show ¬ ah.toNat < ch.toNat by omega)]
            by_cases hca : ch.toNat < ah.toNat
            · rw [if_pos hca]
            · rw [if_neg hca]
              rw [if_neg (show ¬ bh.toNat < ah.toNat by omega)] at h1
              rw [if_neg (show ¬ ch.toNat < bh.toNat by omega)] at h2
              exact ih h1 h2

theorem itemGe_total (a b : FileListItem) : itemGe a b ∨ itemGe b a := by
  unfold itemGe pyStrLt
  cases h : charListLt a.createdAt.data b.createdAt.data with
  | false => exact Or.inl rfl
  | true => exact Or.inr (charListLt_asymm h)

theorem itemGe_trans (a b c : FileListItem) (h1 : itemGe a b) (h2 : itemGe b c) :
    itemGe a c :=
  charListLt_false_trans h1 h2

/-! ## Helper lemmas: the scan loop -/

theorem processFile_filename {n : String} {fd : FileData} {it : FileListItem}
    (h : processFile n fd = ScanStep.item it) : it.filename = n := by
  unfold processFile at h
  dsimp only [] at h
  repeat' split at h
  all_goals cases h <;> rfl

theorem scanFiles_filename_mem (fs : FS) (ns : List String) :
    ∀ l : List FileListItem, scanFiles fs ns = .ok l →
      ∀ it ∈ l, it.filename ∈ ns := by
  induction ns with
  | nil =>
    intro l h it hit
    cases h
    cases hit
  | cons n rest ih =>
    intro l h it hit
    unfold scanFiles at h
    by_cases he : pyEndswith n ".json" = true
    · rw [if_pos he] at h
      cases hstat : fs.stat (DATA_DIR ++ "/" ++ n) with
      | none =>
        rw [hstat] at h
        dsimp only [] at h
        cases h
      | some fd =>
        rw [hstat] at h
        dsimp only [] at h
        cases hpf : processFile n fd with
        | fatal =>
          rw [hpf] at h
          dsimp only [] at h
          cases h
        | skip =>
          rw [hpf] at h
          dsimp only [] at h
          exact List.mem_cons_of_mem _ (ih l h it hit)
        | item it0 =>
          rw [hpf] at h
          dsimp only [] at h
          cases hrest : scanFiles fs rest with
          | error e =>
            rw [hrest] at h
            dsimp only [] at h
            cases h
          | ok l2 =>
            rw [hrest] at h
            dsimp only [] at h
            cases h
            rcases List.mem_cons.1 hit with rfl | hit2
            · rw [processFile_filename hpf]
              exact List.mem_cons_self _ _
            · exact List.mem_cons_of_mem _ (ih l2 hrest it hit2)
    · rw [if_neg he] at h
      exact List.mem_cons_of_mem _ (ih l h it hit)

end Storybook
namespace Storybook

/-! ## Helper lemmas: catalog field extraction -/

theorem strFieldD_eq {mfields : List (String × JValue)} {k dflt t : String}
    (ht : asStr (pyGetD (JValue.obj mfields) k (JValue.str dflt)) = some t) :
    strFieldD (JValue.obj mfields) k dflt = t := by
  unfold strFieldD
  unfold pyGetD at ht
  cases h : jget (JValue.obj mfields) k with
  | none => rw [h] at ht; cases ht; rfl
  | some v =>
    rw [h] at ht
    cases v with
    | str s => cases ht; rfl
    | null => cases ht
    | bool b => cases ht
    | num n => cases ht
    | arr xs => cases ht
    | obj o => cases ht

theorem intFieldD_eq {mfields : List (String × JValue)} {k : String}
    {dflt t : Int}
    (ht : asInt (pyGetD (JValue.obj mfields) k (JValue.num dflt)) = some t) :
    intFieldD (JValue.obj mfields) k dflt = t := by
  unfold intFieldD
  unfold pyGetD at ht
  cases h : jget (JValue.obj mfields) k with
  | none => rw [h] at ht; cases ht; rfl
  | some v =>
    rw [h] at ht
    cases v with
    | num n => cases ht; rfl
    | null => cases ht
    | bool b => cases ht
    | str s => cases ht
    | arr xs => cases ht
    | obj o => cases ht

theorem find_pred_eq :
    (fun p => match p with
      | JValue.obj _ => pyEqOne (pyGet p "pageNumber")
      | _ => false)
    = (fun p : JValue => pyEqOne (pyGet p "pageNumber")) := by
  funext p
  cases p <;> rfl

theorem image_field_eq {data : JValue} {img : Option String}
    (h : asOptStr (page1Image data) = some img) : img = specImage data := by
  unfold page1Image at h
  unfold specImage
  cases hjp : jget data "pages" with
  | none =>
    rw [hjp] at h
    cases h
    rfl
  | some v =>
    cases v with
    | arr pages =>
      rw [hjp] at h
      dsimp only [] at h ⊢
      rw [find_pred_eq] at h
      cases hf : pages.find? (fun p => pyEqOne (pyGet p "pageNumber")) with
      | none =>
        rw [hf] at h
        cases h
        rfl
      | some p =>
        rw [hf] at h
        dsimp only [] at h ⊢
        unfold pyGet pyGetD at h
        cases hib : jget p "imageBase64" with
        | none =>
          rw [hib] at h
          cases h
          rfl
        | some w =>
          rw [hib] at h
          cases w with
          | null => cases h; rfl
          | str s => cases h; rfl
          | bool b => cases h
          | num n => cases h
          | arr xs => cases h
          | obj o => cases h
    | null => rw [hjp] at h; cases h; rfl
    | bool b => rw [hjp] at h; cases h; rfl
    | num n => rw [hjp] at h; cases h; rfl
    | str s => rw [hjp] at h; cases h; rfl
    | obj o => rw [hjp] at h; cases h; rfl

theorem list_ok_elim {fs : FS} {items : List FileListItem}
    (h : get_storybook_list fs = .ok items) :
    ∃ l, scanFiles fs fs.names = .ok l ∧
      items = List.insertionSort itemGe l := by
  unfold get_storybook_list at h
  cases hs : scanFiles fs fs.names with
  | error e =>
    rw [hs] at h
    cases h
  | ok l =>
    rw [hs] at h
    cases h
    exact ⟨l, rfl, rfl⟩

end Storybook
namespace Storybook

/-! ## The claims -/

/-- C1: for every identifier containing `..`, `/` or a backslash, the get
handler answers InvalidIdentifier for every filesystem state whatsoever (the
sanitization precedes all filesystem access, so the outcome cannot depend on
it); every successful read serves the lexically in-root path `DATA_DIR/f` for
a single separator-free component `f`; and every entry the listing exposes is
one of the storage root's own directory entries, hence also an in-root path
(`goodEntryName` is what `os.listdir` guarantees about the names it returns;
on a link-free filesystem these lexical paths are the canonical file paths). -/
theorem C1_identifier_safety :
    (∀ (fs : FS) (s : String), badName s = true →
      get_storybook_by_filename fs s = .error .invalidIdentifier)
  ∧ (∀ (fs : FS) (s : String) (d : StorybookData),
      get_storybook_by_filename fs s = .ok d → inRoot (readPath s))
  ∧ (∀ fs : FS, (∀ n ∈ fs.names, goodEntryName n) →
      ∀ items, get_storybook_list fs = .ok items →
      ∀ it ∈ items, it.filename ∈ fs.names ∧
        inRoot (DATA_DIR ++ "/" ++ it.filename)) := by
  refine ⟨?_, ?_, ?_⟩
  · intro fs s hb
    exact read_invalid_of_bad hb
  · intro fs s d h
    exact inRoot_readPath (read_ok_badName h)
  · intro fs hnames items h it hit
    obtain ⟨l, hscan, rfl⟩ := list_ok_elim h
    have hmem : it ∈ l := (List.perm_insertionSort itemGe l).mem_iff.1 hit
    have hn : it.filename ∈ fs.names :=
      scanFiles_filename_mem fs fs.names l hscan it hmem
    have hg := hnames _ hn
    exact ⟨hn, it.filename, rfl, hg.1, hg.2.1, hg.2.2.1, hg.2.2.2⟩

theorem C1_identifier_safety_witness :
    get_storybook_by_filename fsW "../x" = Except.error Err.invalidIdentifier
  ∧ inRoot (readPath "a.json")
  ∧ ((⟨"a.json", "My Title", "2025-01-01T12:00:00", 1, 1, 9, some "img64"⟩ :
      FileListItem).filename ∈ fsW.names ∧
    inRoot (DATA_DIR ++ "/" ++ (⟨"a.json", "My Title", "2025-01-01T12:00:00",
      1, 1, 9, some "img64"⟩ : FileListItem).filename)) :=
  ⟨C1_identifier_safety.1 fsW "../x" (by decide),
   C1_identifier_safety.2.1 fsW "a.json" sampleDoc (by rfl),
   C1_identifier_safety.2.2 fsW
     (by
       intro n hn
       have hn2 : n = "a.json" := by simpa [fsW] using hn
       subst hn2
       exact ⟨by decide, by decide, by decide, by decide⟩)
     [⟨"a.json", "My Title", "2025-01-01T12:00:00", 1, 1, 9, some "img64"⟩]
     (by rfl)
     ⟨"a.json", "My Title", "2025-01-01T12:00:00", 1, 1, 9, some "img64"⟩
     (by decide)⟩

/-- C2: a document that passed validation, once written, reads back under the
returned identifier as a structurally equal document — same metadata values,
same pages in the same order, the base64 payloads verbatim.  The filesystem
is link-free, and the timestamp/token inputs range over the alphabets Python
draws them from (`%Y%m%d_%H%M%S` digits and underscore; hexadecimal token). -/
theorem C2_round_trip (fs : FS) (d : StorybookData) (ts fid : String)
    (hlinks : fs.links = [])
    (hts : ∀ x ∈ ts.data, x.isDigit = true ∨ x = '_')
    (hfid : ∀ x ∈ fid.data, x.isAlphanum = true) :
    get_storybook_by_filename (upload_storybook fs d ts fid).1
      (upload_storybook fs d ts fid).2.filename = Except.ok d := by
  have hbad : badName (makeFilename d.metadata.title ts fid) = false :=
    badName_makeFilename hts hfid
  have hext : pyEndswith (makeFilename d.metadata.title ts fid) ".json" = true :=
    pyEndswith_append (safe_title d.metadata.title ++ "_" ++ ts ++ "_" ++ fid)
      ".json"
  have hwe : withExt (makeFilename d.metadata.title ts fid)
      = makeFilename d.metadata.title ts fid := withExt_of_endswith hext
  have hlinks2 : (upload_storybook fs d ts fid).1.links = [] := hlinks
  have hstat : (upload_storybook fs d ts fid).1.stat
      (readPath (makeFilename d.metadata.title ts fid))
      = some ⟨jsonSize d.dump, some d.dump⟩ := by
    rw [stat_nil hlinks2]
    unfold readPath
    rw [hwe]
    show List.lookup _ ((DATA_DIR ++ "/" ++ makeFilename d.metadata.title ts fid,
      (⟨jsonSize d.dump, some d.dump⟩ : FileData)) :: fs.files) = _
    simp [List.lookup]
  have hpre : pyStartswith ((upload_storybook fs d ts fid).1.realpath
      (readPath (makeFilename d.metadata.title ts fid)))
      ((upload_storybook fs d ts fid).1.realpath DATA_DIR) = true := by
    rw [realpath_nil hlinks2, realpath_nil hlinks2]
    unfold readPath
    rw [hwe]
    exact pyStartswith_append2 DATA_DIR "/" (makeFilename d.metadata.title ts fid)
  exact read_ok_of hbad hstat hpre rfl

theorem C2_round_trip_witness :
    get_storybook_by_filename
      (upload_storybook fsEmpty sampleDoc "20250101_120000" "ab12cd34").1
      (upload_storybook fsEmpty sampleDoc "20250101_120000" "ab12cd34").2.filename
      = Except.ok sampleDoc :=
  C2_round_trip fsEmpty sampleDoc "20250101_120000" "ab12cd34" rfl
    (by decide) (by decide)

/-- C3 counterexample: the claim demands a distinct status per failure kind,
but an undecodable record (CorruptRecord) and a record failing schema checks
(SchemaViolation) are both answered with status 500 — two distinct kinds
collapse onto one status, so a client cannot branch on them. -/
theorem C3_statuses_counterexample :
    get_storybook_by_filename fsCorrupt "c.json" = .error .corruptRecord
  ∧ get_storybook_by_filename fsBadSchema "s.json" = .error .schemaViolation
  ∧ Err.status .corruptRecord = Err.status .schemaViolation
  ∧ Err.corruptRecord ≠ Err.schemaViolation :=
  ⟨rfl, rfl, rfl, by decide⟩

/-- C3 amended: only InvalidIdentifier (400) and NotFound (404) receive
dedicated statuses; CorruptRecord, SchemaViolation and StorageFailure are all
reported as 500, distinguishable only by free-text message. -/
theorem C3_statuses_amended : ∀ e : Err,
    (Err.status e = 400 ↔ e = .invalidIdentifier)
  ∧ (Err.status e = 404 ↔ e = .notFound)
  ∧ (Err.status e = 500 ↔
      (e = .corruptRecord ∨ e = .schemaViolation ∨ e = .storageFailure)) := by
  intro e
  cases e <;> decide

/-- C4 counterexample: `evil.json` passes sanitization but resolves (through
a dangling symlink inside the root) to a path outside the storage root; the
claim demands InvalidIdentifier, yet the code checks existence first and
answers NotFound. -/
theorem C4_order_counterexample :
    get_storybook_by_filename fsC4 "evil.json" = .error .notFound
  ∧ pyStartswith (fsC4.realpath (readPath "evil.json"))
      (fsC4.realpath DATA_DIR) = false :=
  ⟨rfl, rfl⟩

/-- C4 amended: after sanitization and extension append the code checks
existence BEFORE containment: a missing file yields NotFound regardless of
where the path resolves, and the canonicalized-prefix containment check is
applied only to existing files, any failure yielding InvalidIdentifier. -/
theorem C4_order_amended (fs : FS) (fname : String)
    (hbad : badName fname = false) :
    (fs.stat (readPath fname) = none →
      get_storybook_by_filename fs fname = .error .notFound)
  ∧ (∀ fd, fs.stat (readPath fname) = some fd →
      pyStartswith (fs.realpath (readPath fname))
        (fs.realpath DATA_DIR) = false →
      get_storybook_by_filename fs fname = .error .invalidIdentifier) :=
  ⟨fun h => read_notFound_of hbad h,
   fun _fd hs hp => read_invalid_of_escape hbad hs hp⟩

theorem C4_order_amended_witness :
    get_storybook_by_filename fsC4 "evil.json" = .error .notFound :=
  (C4_order_amended fsC4 "evil.json" (by decide)).1 (by rfl)

/-- C5: the listing is sorted descending by the `createdAt` text under the
code-point lexicographic order (Python string `<`), and on the spec's three
example timestamps it returns 2025-06-01, 2024-01-01, 2023-12-31 in that
order. -/
theorem C5_sort_order :
    (∀ (fs : FS) (items : List FileListItem),
      get_storybook_list fs = .ok items → items.Sorted itemGe)
  ∧ get_storybook_list fsC5 = .ok
      [⟨"b.json", "B", "2025-06-01T00:00:00", 0, 0, 6, none⟩,
       ⟨"a.json", "A", "2024-01-01T00:00:00", 0, 0, 5, none⟩,
       ⟨"c.json", "C", "2023-12-31T23:59:59", 0, 0, 7, none⟩] := by
  constructor
  · intro fs items h
    obtain ⟨l, -, rfl⟩ := list_ok_elim h
    haveI : IsTotal FileListItem itemGe := ⟨itemGe_total⟩
    haveI : IsTrans FileListItem itemGe := ⟨itemGe_trans⟩
    exact List.sorted_insertionSort itemGe l
  · rfl

theorem C5_sort_order_witness :
    List.Sorted itemGe
      [⟨"b.json", "B", "2025-06-01T00:00:00", 0, 0, 6, none⟩,
       ⟨"a.json", "A", "2024-01-01T00:00:00", 0, 0, 5, none⟩,
       ⟨"c.json", "C", "2023-12-31T23:59:59", 0, 0, 7, none⟩] :=
  C5_sort_order.1 fsC5 _ C5_sort_order.2

end Storybook
namespace Storybook

/-- C6: the claim (and the listing's own skip-and-log design) requires that a
file which decodes but lacks a `metadata` field is skipped; yet a file whose
bytes are the JSON text `5` decodes to a non-container, `'metadata' in data`
raises `TypeError`, which the `except (json.JSONDecodeError, KeyError,
ValueError)` clause does not catch, and the whole listing aborts with a 500.
With the scalar file removed the same root lists its one valid record. -/
theorem C6_scalar_aborts_listing :
    get_storybook_list fsC6bad = Except.error ()
  ∧ get_storybook_list fsC6good = Except.ok
      [⟨"good.json", "A", "2024-01-01T00:00:00", 0, 0, 9, none⟩] :=
  ⟨rfl, rfl⟩

/-- C7 counterexample: for the identifier `a.`, which does not end in
`.json`, the two reads differ: `read("a.")` appends the extension after
sanitization and proceeds to NotFound, while `read("a..json")` is rejected as
InvalidIdentifier because the appended name contains `..`. -/
theorem C7_extension_counterexample :
    pyEndswith "a." ".json" = false
  ∧ get_storybook_by_filename fsEmpty "a." = .error .notFound
  ∧ get_storybook_by_filename fsEmpty ("a." ++ ".json")
      = .error .invalidIdentifier :=
  ⟨rfl, rfl, rfl⟩

/-- C7 amended: for every identifier not ending in `.json` such that the
extension-appended name still passes sanitization (in particular the
identifier does not end in a dot), the read behaves identically to the read
of the identifier with `.json` appended, on every filesystem state. -/
theorem C7_extension_amended (fs : FS) (s : String)
    (hext : pyEndswith s ".json" = false)
    (hgood : badName (s ++ ".json") = false) :
    get_storybook_by_filename fs s
      = get_storybook_by_filename fs (s ++ ".json") := by
  have hbs : badName s = false := badName_of_append_false hgood
  have h1 : withExt s = s ++ ".json" := withExt_of_not_endswith hext
  have h2 : withExt (s ++ ".json") = s ++ ".json" :=
    withExt_of_endswith (pyEndswith_append s ".json")
  unfold get_storybook_by_filename readPath
  rw [hbs, hgood, h1, h2]

theorem C7_extension_amended_witness :
    get_storybook_by_filename fsW "abc"
      = get_storybook_by_filename fsW ("abc" ++ ".json") :=
  C7_extension_amended fsW "abc" (by decide) (by decide)

/-- C8: the identifier returned by the upload handler is exactly the
sanitized title — characters outside alphanumerics, space, hyphen and
underscore stripped, trailing whitespace removed, spaces replaced by
underscores — suffixed with the timestamp and the random token; and it
contains no `/`, no backslash, and no `..` sequence.  The timestamp and token
range over the alphabets Python draws them from. -/
theorem C8_identifier_shape (fs : FS) (d : StorybookData) (ts fid : String)
    (hts : ∀ x ∈ ts.data, x.isDigit = true ∨ x = '_')
    (hfid : ∀ x ∈ fid.data, x.isAlphanum = true) :
    (upload_storybook fs d ts fid).2.filename
        = safe_title d.metadata.title ++ "_" ++ ts ++ "_" ++ fid ++ ".json"
  ∧ pyContains (upload_storybook fs d ts fid).2.filename "/" = false
  ∧ pyContains (upload_storybook fs d ts fid).2.filename "\\" = false
  ∧ pyContains (upload_storybook fs d ts fid).2.filename ".." = false := by
  have hb0 : badName (makeFilename d.metadata.title ts fid) = false :=
    badName_makeFilename hts hfid
  have hb := badName_false_parts hb0
  exact ⟨rfl, hb.2.1, hb.2.2, hb.1⟩

theorem C8_identifier_shape_witness :
    (upload_storybook fsEmpty sampleDoc "20250101_120000" "ab12cd34").2.filename
        = safe_title sampleDoc.metadata.title ++ "_" ++ "20250101_120000"
          ++ "_" ++ "ab12cd34" ++ ".json"
  ∧ pyContains (upload_storybook fsEmpty sampleDoc "20250101_120000"
      "ab12cd34").2.filename "/" = false
  ∧ pyContains (upload_storybook fsEmpty sampleDoc "20250101_120000"
      "ab12cd34").2.filename "\\" = false
  ∧ pyContains (upload_storybook fsEmpty sampleDoc "20250101_120000"
      "ab12cd34").2.filename ".." = false :=
  C8_identifier_shape fsEmpty sampleDoc "20250101_120000" "ab12cd34"
    (by decide) (by decide)

/-- C9: every record the listing includes carries exactly the fields the spec
table prescribes — `title` with its placeholder default when absent,
`createdAt` defaulting to the empty string, `totalPages`/`savedPages`
defaulting to 0, and the `imageBase64` of the first page whose `pageNumber`
equals 1, absent when no such page exists or that page lacks (a string)
payload — where the spec-side extractors are stated independently of the
handler code. -/
theorem C9_entry_fields (name : String) (fd : FileData) (data : JValue)
    (it : FileListItem) (hjson : fd.json = some data)
    (hit : processFile name fd = ScanStep.item it) :
    it.title = specTitle data ∧ it.createdAt = specCreatedAt data ∧
    it.totalPages = specTotalPages data ∧ it.savedPages = specSavedPages data ∧
    it.imageBase64 = specImage data := by
  unfold processFile at hit
  rw [hjson] at hit
  dsimp only [] at hit
  cases hic : pyInCheck data "metadata" with
  | err => rw [hic] at hit; cases hit
  | no => rw [hic] at hit; cases hit
  | yes =>
    rw [hic] at hit
    dsimp only [] at hit
    cases data with
    | null => cases hit
    | bool b => cases hit
    | num n => cases hit
    | str s => cases hit
    | arr xs => cases hit
    | obj fields =>
      dsimp only [] at hit
      cases hmv : fields.lookup "metadata" with
      | none => rw [hmv] at hit; cases hit
      | some mv =>
        cases mv with
        | null => rw [hmv] at hit; cases hit
        | bool b => rw [hmv] at hit; cases hit
        | num n => rw [hmv] at hit; cases hit
        | str s => rw [hmv] at hit; cases hit
        | arr xs => rw [hmv] at hit; cases hit
        | obj mfields =>
          rw [hmv] at hit
          dsimp only [] at hit
          have hsm : specMeta (JValue.obj fields) = JValue.obj mfields := by
            unfold specMeta jget
            dsimp only []
            rw [hmv]
            rfl
          cases ht : asStr (pyGetD (JValue.obj mfields) "title"
              (JValue.str "タイトル不明")) with
          | none => rw [ht] at hit; cases hit
          | some t =>
            rw [ht] at hit
            cases hc : asStr (pyGetD (JValue.obj mfields) "createdAt"
                (JValue.str "")) with
            | none => rw [hc] at hit; cases hit
            | some c =>
              rw [hc] at hit
              cases htp : asInt (pyGetD (JValue.obj mfields) "totalPages"
                  (JValue.num 0)) with
              | none => rw [htp] at hit; cases hit
              | some tp =>
                rw [htp] at hit
                cases hsp : asInt (pyGetD (JValue.obj mfields) "savedPages"
                    (JValue.num 0)) with
                | none => rw [hsp] at hit; cases hit
                | some sp =>
                  rw [hsp] at hit
                  cases himg : asOptStr (page1Image (JValue.obj fields)) with
                  | none => rw [himg] at hit; cases hit
                  | some img =>
                    rw [himg] at hit
                    cases hit
                    refine ⟨?_, ?_, ?_, ?_, ?_⟩
                    · unfold specTitle
                      rw [hsm]
                      exact (strFieldD_eq ht).symm
                    · unfold specCreatedAt
                      rw [hsm]
                      exact (strFieldD_eq hc).symm
                    · unfold specTotalPages
                      rw [hsm]
                      exact (intFieldD_eq htp).symm
                    · unfold specSavedPages
                      rw [hsm]
                      exact (intFieldD_eq hsp).symm
                    · exact image_field_eq himg

theorem C9_entry_fields_witness :
    (⟨"a.json", "My Title", "2025-01-01T12:00:00", 1, 1, 9, some "img64"⟩ :
        FileListItem).title = specTitle sampleDoc.dump
  ∧ (⟨"a.json", "My Title", "2025-01-01T12:00:00", 1, 1, 9, some "img64"⟩ :
        FileListItem).createdAt = specCreatedAt sampleDoc.dump
  ∧ (⟨"a.json", "My Title", "2025-01-01T12:00:00", 1, 1, 9, some "img64"⟩ :
        FileListItem).totalPages = specTotalPages sampleDoc.dump
  ∧ (⟨"a.json", "My Title", "2025-01-01T12:00:00", 1, 1, 9, some "img64"⟩ :
        FileListItem).savedPages = specSavedPages sampleDoc.dump
  ∧ (⟨"a.json", "My Title", "2025-01-01T12:00:00", 1, 1, 9, some "img64"⟩ :
        FileListItem).imageBase64 = specImage sampleDoc.dump :=
  C9_entry_fields "a.json" ⟨9, some sampleDoc.dump⟩ sampleDoc.dump
    ⟨"a.json", "My Title", "2025-01-01T12:00:00", 1, 1, 9, some "img64"⟩
    rfl rfl

/-- C10 counterexample: a record that decodes, carries a `metadata` mapping
and has no `pages` field is nevertheless SKIPPED when its `title` is a
number (pydantic rejects it for the summary model, a `ValidationError` the
loop catches as `ValueError`), refuting both halves of the claim: such a
record is not included, and skipping is not confined to undecodable or
metadata-less files. -/
theorem C10_included_counterexample :
    fdC10.json.isSome = true
  ∧ pyInCheck (JValue.obj [("metadata", JValue.obj [("title", JValue.num 5)])])
      "metadata" = KeyCheck.yes
  ∧ processFile "x.json" fdC10 = ScanStep.skip :=
  ⟨rfl, rfl, rfl⟩

/-- C10 amended: a record that decodes to an object whose `metadata` is a
mapping with well-typed (or absent) summary fields, and whose `pages` field
is missing or not a sequence, is included in the listing with its image field
absent. -/
theorem C10_included_amended (name : String) (sz : Nat)
    (fields mfields : List (String × JValue))
    (hmeta : fields.lookup "metadata" = some (JValue.obj mfields))
    (hpages : ∀ xs, fields.lookup "pages" ≠ some (JValue.arr xs))
    (ht : ∃ t, asStr (pyGetD (JValue.obj mfields) "title"
      (JValue.str "タイトル不明")) = some t)
    (hc : ∃ c, asStr (pyGetD (JValue.obj mfields) "createdAt"
      (JValue.str "")) = some c)
    (htp : ∃ tp, asInt (pyGetD (JValue.obj mfields) "totalPages"
      (JValue.num 0)) = some tp)
    (hsp : ∃ sp, asInt (pyGetD (JValue.obj mfields) "savedPages"
      (JValue.num 0)) = some sp) :
    ∃ it, processFile name ⟨sz, some (JValue.obj fields)⟩ = ScanStep.item it ∧
      it.imageBase64 = none := by
  obtain ⟨t, ht⟩ := ht
  obtain ⟨c, hc⟩ := hc
  obtain ⟨tp, htp⟩ := htp
  obtain ⟨sp, hsp⟩ := hsp
  have hpi : page1Image (JValue.obj fields) = JValue.null := by
    unfold page1Image jget
    dsimp only []
    cases hjp : fields.lookup "pages" with
    | none => rfl
    | some v =>
      cases v with
      | arr xs => exact absurd hjp (hpages xs)
      | null => rfl
      | bool b => rfl
      | num n => rfl
      | str s => rfl
      | obj o => rfl
  have hic : pyInCheck (JValue.obj fields) "metadata" = KeyCheck.yes := by
    unfold pyInCheck
    dsimp only []
    rw [hmeta]
    rfl
  refine ⟨⟨name, t, c, tp, sp, sz, none⟩, ?_, rfl⟩
  unfold processFile
  dsimp only []
  rw [hic]
  dsimp only []
  rw [hmeta]
  dsimp only []
  rw [ht, hc, htp, hsp, hpi]
  rfl

theorem C10_included_amended_witness :
    ∃ it, processFile "x.json"
      ⟨5, some (JValue.obj [("metadata", JValue.obj [("title", JValue.str "t")])])⟩
      = ScanStep.item it ∧ it.imageBase64 = none :=
  C10_included_amended "x.json" 5
    [("metadata", JValue.obj [("title", JValue.str "t")])]
    [("title", JValue.str "t")] rfl (fun xs h => by cases h)
    ⟨"t", rfl⟩ ⟨"", rfl⟩ ⟨0, rfl⟩ ⟨0, rfl⟩

end Storybook
